import Mathlib

/-!
Shallow embedding of the capacity-accounting / booking core and the cursor
paginator of the event-manager repository (Express + Mongoose).

Sources embedded here:
- `src/server/models/Booking.js` (schema hooks, unique index, instance methods)
- `src/unnamed/part_010` (Event model: `isBookable`, `updateAvailableCapacity`,
  pre-save capacity validation)
- `src/server/routes/categories.js` (second document: the bookings router —
  create / cancel / confirm routes)
- `src/server/routes/events.js` (listing with cursor pagination, event
  cancellation cascade, event update)
- `src/server/utils/validation.js` (`eventValidation.list` limit rule)
- `src/server/middleware/errorHandler.js` (mapping of E11000 duplicate-key
  errors to the DUPLICATE_FIELD response)

Machine integers for money are not involved; quantities are small naturals and
capacities are modelled as `Int` (the JS numbers never approach 2^53 in these
paths, and the code does plain arithmetic on them). Times (`dateTime.start`,
`now`) are epoch milliseconds modelled as `Int`. Fallible operations return
`Except`/result inductives mirroring the HTTP error codes.
-/

namespace EventManager

/-- Booking.status enum from `BookingSchema` (`Booking.js` lines 15-19). -/
inductive BStatus
  | pending
  | confirmed
  | cancelled
  | waitlisted
deriving DecidableEq, Repr

/-- Event.status enum from `EventSchema` (`part_010` lines 150-154). -/
inductive EStatus
  | draft
  | published
  | cancelled
  | completed
deriving DecidableEq, Repr

/-- Cancellation reasons.  The source stores free-form strings; only the two
system-supplied defaults and opaque user-supplied reasons occur on the
modelled paths, so they are embedded as an inductive. -/
inductive Reason
  | user (tag : Nat)
  | cancelledByUser
  | eventCancelledByOrganizer
deriving DecidableEq, Repr

/-- The `capacity` subdocument of an Event (`part_010` lines 93-110). -/
structure Capacity where
  total : Int
  reserved : Int
  available : Int
deriving DecidableEq, Repr

/-- Event record: the fields read or written by the embedded routes.
`start` is `dateTime.start` in epoch milliseconds. -/
structure Event where
  id : Nat
  organizerId : Nat
  status : EStatus
  start : Int
  capacity : Capacity
  requiresApproval : Bool
  isPublic : Bool
deriving DecidableEq, Repr

/-- Booking record: the fields read or written by the embedded routes. -/
structure Booking where
  id : Nat
  eventId : Nat
  userId : Nat
  status : BStatus
  quantity : Nat
  cancelReason : Option Reason
deriving DecidableEq, Repr

/-- The persistent store: the events and bookings collections. -/
structure DB where
  events : List Event
  bookings : List Booking
deriving DecidableEq, Repr

/-- Decidable equality for `Except`, used to evaluate route outcomes on
concrete states. -/
instance {E A : Type} [DecidableEq E] [DecidableEq A] : DecidableEq (Except E A) :=
  fun a b =>
    match a, b with
    | .error e1, .error e2 =>
      match decEq e1 e2 with
      | isTrue h => isTrue (by rw [h])
      | isFalse h => isFalse (by intro hc; cases hc; exact h rfl)
    | .error _, .ok _ => isFalse (by intro hc; cases hc)
    | .ok _, .error _ => isFalse (by intro hc; cases hc)
    | .ok a1, .ok a2 =>
      match decEq a1 a2 with
      | isTrue h => isTrue (by rw [h])
      | isFalse h => isFalse (by intro hc; cases hc; exact h rfl)

/-- `Event.findById`. -/
def findEvent (db : DB) (eid : Nat) : Option Event :=
  db.events.find? (fun e => e.id == eid)

/-- `Booking.findById`. -/
def findBooking (db : DB) (bid : Nat) : Option Booking :=
  db.bookings.find? (fun b => b.id == bid)

/-- A booking is active when its status is pending or confirmed (the statuses
matched by the capacity aggregate and the duplicate pre-check). -/
def isActive (b : Booking) : Bool :=
  b.status == BStatus.pending || b.status == BStatus.confirmed

/-- Total quantity of the active bookings for event `eid` in a bookings
list. -/
def listActiveSum (l : List Booking) (eid : Nat) : Int :=
  ((l.filter (fun b => b.eventId == eid && isActive b)).map
    (fun b => (b.quantity : Int))).sum

/-- The aggregate in `EventSchema.methods.updateAvailableCapacity`
(`part_010` lines 245-260): total quantity over this event's bookings with
status in `{confirmed, pending}`. -/
def activeSum (db : DB) (eid : Nat) : Int :=
  listActiveSum db.bookings eid

/-- Errors raised by `EventSchema.pre('save')` (`part_010` lines 222-233). -/
inductive SaveErr
  | reservedExceedsTotal
  | negativeAvailable
deriving DecidableEq, Repr

/-- Replace the stored event document(s) whose `_id` matches `e.id` with `e`
(the effect of `event.save()` on the collection). -/
def putEvent (db : DB) (e : Event) : DB :=
  { db with events := db.events.map (fun x => if x.id == e.id then e else x) }

/-- Replace the stored booking document(s) whose `_id` matches `b.id` with `b`
(the effect of `booking.save()` on the collection). -/
def putBooking (db : DB) (b : Booking) : DB :=
  { db with bookings := db.bookings.map (fun x => if x.id == b.id then b else x) }

/-- `event.save()`: the pre-save capacity validation (`part_010` lines
222-233) rejects `reserved > total` and `available < 0`; on success the
document is persisted. -/
def saveEvent (db : DB) (e : Event) : Except SaveErr DB :=
  if e.capacity.reserved > e.capacity.total then .error .reservedExceedsTotal
  else if e.capacity.available < 0 then .error .negativeAvailable
  else .ok (putEvent db e)

/-- `EventSchema.methods.updateAvailableCapacity` (`part_010` lines 243-264):
recompute `available = total - reserved - Σ(active quantities)` from the
ledger and `save()` the event. -/
def updateAvailableCapacity (db : DB) (e : Event) : Except SaveErr DB :=
  let booked : Int := activeSum db e.id
  saveEvent db
    { e with capacity :=
      { e.capacity with available := e.capacity.total - e.capacity.reserved - booked } }

/-- `EventSchema.methods.isBookable` (`part_010` lines 235-240). -/
def isBookable (now : Int) (e : Event) : Bool :=
  e.status == EStatus.published && decide (now < e.start) &&
    decide (0 < e.capacity.available)

/-- `BookingSchema.statics.checkDuplicateBooking` (`Booking.js` lines
244-253): an existing booking for the pair with status pending or confirmed. -/
def checkDuplicateBooking (db : DB) (eid uid : Nat) : Bool :=
  db.bookings.any (fun b => b.eventId == eid && b.userId == uid && isActive b)

/-- The unique index `{ eventId: 1, userId: 1 }` (`Booking.js` line 120).
It has no partial filter, so ANY existing row for the pair — cancelled or
waitlisted included — makes a new insert fail with E11000. -/
def uniqueIndexHit (db : DB) (eid uid : Nat) : Bool :=
  db.bookings.any (fun b => b.eventId == eid && b.userId == uid)

/-- Outcome of `POST /api/bookings` (`categories.js` second document, lines
139-232), including the errorHandler translations: an E11000 insert error
surfaces as 400 `DUPLICATE_FIELD`, and an error thrown by the post-save
capacity hook surfaces as a 500 internal error. -/
inductive CreateResult
  | created (bid : Nat) (st : BStatus)
  | eventNotFound
  | eventNotBookable
  | duplicateBooking
  | insufficientCapacity
  | attendeeCountMismatch
  | duplicateField
  | internalError (e : SaveErr)
deriving DecidableEq, Repr

/-- Request body of `POST /api/bookings`; `attendeeCount` is
`attendeeInfo.length`. -/
structure CreateReq where
  eventId : Nat
  userId : Nat
  quantity : Nat
  attendeeCount : Nat
deriving DecidableEq, Repr

/-- `POST /api/bookings` (booking creation).  Guard order follows the route:
event lookup, `isBookable`, duplicate pre-check, capacity read, attendee
count; then `Booking.create` enforces the unique index on insert and the
`post('save')` hook refetches the event and runs `updateAvailableCapacity`.
A post-save failure propagates as an error response, but the inserted ledger
row remains. -/
def createBooking (now : Int) (db : DB) (newId : Nat) (r : CreateReq) :
    CreateResult × DB :=
  match findEvent db r.eventId with
  | none => (.eventNotFound, db)
  | some ev =>
    if ¬ isBookable now ev then (.eventNotBookable, db)
    else if checkDuplicateBooking db r.eventId r.userId then (.duplicateBooking, db)
    else if ev.capacity.available < (r.quantity : Int) then (.insufficientCapacity, db)
    else if r.attendeeCount ≠ r.quantity then (.attendeeCountMismatch, db)
    else if uniqueIndexHit db r.eventId r.userId then (.duplicateField, db)
    else
      let st := if ev.requiresApproval then BStatus.pending else BStatus.confirmed
      let b : Booking :=
        { id := newId, eventId := r.eventId, userId := r.userId, status := st,
          quantity := r.quantity, cancelReason := none }
      let db1 : DB := { db with bookings := db.bookings ++ [b] }
      match findEvent db1 r.eventId with
      | none => (.created newId st, db1)
      | some ev1 =>
        match updateAvailableCapacity db1 ev1 with
        | .ok db2 => (.created newId st, db2)
        | .error e => (.internalError e, db1)

/-- User roles from the auth middleware. -/
inductive Role
  | user
  | organizer
  | admin
deriving DecidableEq, Repr

/-- The authenticated caller (`req.user`). -/
structure Caller where
  id : Nat
  role : Role
deriving DecidableEq, Repr

/-- Milliseconds in 24 hours: the cancellation window constant.  The route
computes `hoursUntilEvent = (eventStart - now) / 3600000` with real division
and compares `< 24`, which is equivalent to `eventStart - now < 24 * 3600000`. -/
def deadlineMs : Int := 24 * 3600000

/-- Outcome of `PUT /api/bookings/:id/cancel` (`categories.js` second
document, lines 426-495). -/
inductive CancelResult
  | ok
  | notFound
  | accessDenied
  | cannotBeCancelled
  | deadlinePassed
  | populateFailed
  | internalError (e : SaveErr)
deriving DecidableEq, Repr

/-- `BookingSchema.methods.canBeCancelled` (`Booking.js` lines 189-192). -/
def canBeCancelled (b : Booking) : Bool :=
  b.status == BStatus.confirmed || b.status == BStatus.pending

/-- `PUT /api/bookings/:id/cancel`: lookup, permission check, `canBeCancelled`
guard, the 24-hour window for the original requester, then
`booking.cancel(reason)` — which sets status/cancelReason, saves, and whose
`post('save')` hook refetches the event and runs `updateAvailableCapacity`.
The route reads `booking.eventId` populated; a missing event would make the
permission check throw, surfaced as a 500 — modelled as `internalError`. -/
def cancelBookingRoute (now : Int) (db : DB) (bid : Nat) (c : Caller)
    (reason : Option Reason) : CancelResult × DB :=
  match findBooking db bid with
  | none => (.notFound, db)
  | some b =>
    match findEvent db b.eventId with
    | none => (.populateFailed, db)
    | some ev =>
      if ¬ (b.userId == c.id || ev.organizerId == c.id || c.role == Role.admin) then
        (.accessDenied, db)
      else if ¬ canBeCancelled b then (.cannotBeCancelled, db)
      else if decide (ev.start - now < deadlineMs) && b.userId == c.id then
        (.deadlinePassed, db)
      else
        let b' : Booking :=
          { b with status := BStatus.cancelled,
                   cancelReason := some (reason.getD Reason.cancelledByUser) }
        let db1 := putBooking db b'
        match findEvent db1 b.eventId with
        | none => (.ok, db1)
        | some ev1 =>
          match updateAvailableCapacity db1 ev1 with
          | .ok db2 => (.ok, db2)
          | .error e => (.internalError e, db1)

/-- Outcome of `PUT /api/bookings/:id/confirm` (`categories.js` second
document, lines 500-544).  `booking.confirm()` throws when the booking is not
pending; that error reaches the generic error handler as a 500. -/
inductive ConfirmResult
  | ok
  | notFound
  | roleDenied
  | confirmDenied
  | notPendingError
  | populateFailed
  | internalError (e : SaveErr)
deriving DecidableEq, Repr

/-- `PUT /api/bookings/:id/confirm`: `authorize('organizer','admin')`,
ownership check for organizers, then `booking.confirm()` (only from pending;
saves and triggers the post-save capacity recompute). -/
def confirmBookingRoute (db : DB) (bid : Nat) (c : Caller) : ConfirmResult × DB :=
  if ¬ (c.role == Role.organizer || c.role == Role.admin) then (.roleDenied, db)
  else
    match findBooking db bid with
    | none => (.notFound, db)
    | some b =>
      match findEvent db b.eventId with
      | none => (.populateFailed, db)
      | some ev =>
        if c.role == Role.organizer && ¬ (ev.organizerId == c.id) then
          (.confirmDenied, db)
        else if ¬ (b.status == BStatus.pending) then (.notPendingError, db)
        else
          let b' : Booking := { b with status := BStatus.confirmed }
          let db1 := putBooking db b'
          match findEvent db1 b.eventId with
          | none => (.ok, db1)
          | some ev1 =>
            match updateAvailableCapacity db1 ev1 with
            | .ok db2 => (.ok, db2)
            | .error e => (.internalError e, db1)

/-- Outcome of `PUT /api/events/:id/cancel` (`events.js` lines 410-474). -/
inductive EventCancelResult
  | ok
  | notFound
  | denied
  | alreadyCancelled
  | internalError (e : SaveErr)
deriving DecidableEq, Repr

/-- The per-document effect of the cascade's `Booking.updateMany` filter and
update (`events.js` lines 440-450). -/
def cascadeBooking (eid : Nat) (b : Booking) : Booking :=
  if b.eventId == eid && (b.status == BStatus.pending || b.status == BStatus.confirmed) then
    { b with status := BStatus.cancelled,
             cancelReason := some Reason.eventCancelledByOrganizer }
  else b

/-- `PUT /api/events/:id/cancel`: ownership check, already-cancelled guard,
`event.save()` with status `cancelled`, then the bulk
`Booking.updateMany({status in [pending, confirmed]} -> cancelled)`.
`updateMany` bypasses the document middleware, so no `post('save')` hook and
no `updateAvailableCapacity` run for the cascaded bookings. -/
def cancelEventRoute (db : DB) (eid : Nat) (c : Caller) : EventCancelResult × DB :=
  if ¬ (c.role == Role.organizer || c.role == Role.admin) then (.denied, db)
  else
    match findEvent db eid with
    | none => (.notFound, db)
    | some ev =>
      if c.role == Role.organizer && ¬ (ev.organizerId == c.id) then (.denied, db)
      else if ev.status == EStatus.cancelled then (.alreadyCancelled, db)
      else
        match saveEvent db { ev with status := EStatus.cancelled } with
        | .error e => (.internalError e, db)
        | .ok db1 =>
          (.ok, { db1 with bookings := db1.bookings.map (cascadeBooking eid) })

/-- Outcome of `PUT /api/events/:id` (`events.js` lines 201-289). -/
inductive EventUpdateResult
  | ok
  | notFound
  | denied
  | capacityReductionDenied
  | validationError
  | internalError (e : SaveErr)
deriving DecidableEq, Repr

/-- Update body restricted to the capacity fields (the ones relevant to the
capacity invariant).  `runValidators` enforces `total >= 1` and
`reserved >= 0` (`part_010` lines 93-110). -/
structure EventUpdateBody where
  total : Option Int
  reserved : Option Int
deriving DecidableEq, Repr

/-- `PUT /api/events/:id`: ownership check; if a new `capacity.total` is
supplied, reject it below the aggregate booked quantity
(`CAPACITY_REDUCTION_DENIED`); `findByIdAndUpdate` persists the body (update
validators, no save hooks); then `updateAvailableCapacity` recomputes and
saves — a recompute failure surfaces as a 500 with the body already
persisted. -/
def updateEventRoute (db : DB) (eid : Nat) (c : Caller) (body : EventUpdateBody) :
    EventUpdateResult × DB :=
  if ¬ (c.role == Role.organizer || c.role == Role.admin) then (.denied, db)
  else
    match findEvent db eid with
    | none => (.notFound, db)
    | some ev =>
      if c.role == Role.organizer && ¬ (ev.organizerId == c.id) then (.denied, db)
      else if (match body.total with
               | some t => decide (t < activeSum db eid)
               | none => false) then (.capacityReductionDenied, db)
      else if ¬ ((match body.total with | some t => decide (1 ≤ t) | none => true) &&
                 (match body.reserved with | some rv => decide (0 ≤ rv) | none => true)) then
        (.validationError, db)
      else
        let ev' : Event :=
          { ev with capacity :=
            { ev.capacity with
                total := body.total.getD ev.capacity.total,
                reserved := body.reserved.getD ev.capacity.reserved } }
        let db1 := putEvent db ev'
        match findEvent db1 eid with
        | none => (.ok, db1)
        | some ev1 =>
          match updateAvailableCapacity db1 ev1 with
          | .ok db2 => (.ok, db2)
          | .error e => (.internalError e, db1)

/-- Control state of one in-flight `POST /api/bookings` request.  The route
performs its database work in separate awaited round-trips; the machine
splits it into three atomic store operations:
`pc = 0`: fetch the event and run every route guard against that snapshot;
`pc = 1`: insert the ledger row (the unique-index check is atomic with it);
`pc = 2`: the post-save hook — refetch the event, aggregate, save.
`pc = 3`: finished, `result` set. -/
structure ReqState where
  req : CreateReq
  newId : Nat
  pc : Nat
  snap : Option Event
  result : Option CreateResult
deriving DecidableEq, Repr

/-- One atomic store operation of an in-flight booking-creation request,
against the current database.  Each step is exactly one of the awaited
round-trips of the route; between two steps of one request, other requests
may run (the stateless handlers share no lock). -/
def microStep (now : Int) (db : DB) (rs : ReqState) : DB × ReqState :=
  match rs.pc with
  | 0 =>
    match findEvent db rs.req.eventId with
    | none => (db, { rs with pc := 3, result := some .eventNotFound })
    | some ev =>
      if ¬ isBookable now ev then
        (db, { rs with pc := 3, result := some .eventNotBookable })
      else if checkDuplicateBooking db rs.req.eventId rs.req.userId then
        (db, { rs with pc := 3, result := some .duplicateBooking })
      else if ev.capacity.available < (rs.req.quantity : Int) then
        (db, { rs with pc := 3, result := some .insufficientCapacity })
      else if rs.req.attendeeCount ≠ rs.req.quantity then
        (db, { rs with pc := 3, result := some .attendeeCountMismatch })
      else (db, { rs with pc := 1, snap := some ev })
  | 1 =>
    if uniqueIndexHit db rs.req.eventId rs.req.userId then
      (db, { rs with pc := 3, result := some .duplicateField })
    else
      match rs.snap with
      | none => (db, { rs with pc := 3, result := some .eventNotFound })
      | some ev =>
        let st := if ev.requiresApproval then BStatus.pending else BStatus.confirmed
        let b : Booking :=
          { id := rs.newId, eventId := rs.req.eventId, userId := rs.req.userId,
            status := st, quantity := rs.req.quantity, cancelReason := none }
        ({ db with bookings := db.bookings ++ [b] }, { rs with pc := 2 })
  | 2 =>
    match findBooking db rs.newId with
    | none => (db, { rs with pc := 3, result := some (.created rs.newId BStatus.pending) })
    | some b =>
      match findEvent db rs.req.eventId with
      | none => (db, { rs with pc := 3, result := some (.created rs.newId b.status) })
      | some ev =>
        match updateAvailableCapacity db ev with
        | .ok db2 => (db2, { rs with pc := 3, result := some (.created rs.newId b.status) })
        | .error e => (db, { rs with pc := 3, result := some (.internalError e) })
  | _ => (db, rs)

/-- Run two concurrent booking-creation requests under a schedule: each
schedule entry names the request that performs its next atomic store
operation. -/
def runSchedule (now : Int) : List Bool → DB → ReqState → ReqState →
    DB × ReqState × ReqState
  | [], db, r0, r1 => (db, r0, r1)
  | pick :: rest, db, r0, r1 =>
    if pick then
      let (db', r1') := microStep now db r1
      runSchedule now rest db' r0 r1'
    else
      let (db', r0') := microStep now db r0
      runSchedule now rest db' r0' r1

/-! ## Cursor paginator (`GET /api/events`, `events.js` lines 14-117) -/

/-- Decoding outcome of the `cursor` query parameter.
`absent`: no cursor supplied.  `parseFail`: `JSON.parse` of the base64
payload threw; the `try/catch` swallows it and leaves the filters untouched.
`parsed t i`: a decoded payload `{dateTime, id}` with a valid date `t`;
the route reads only `cursorData.dateTime` — the `id` is never used. -/
inductive CursorParam
  | absent
  | parseFail
  | parsed (dateTime : Int) (id : Nat)
deriving DecidableEq, Repr

/-- Whether the cursor query parameter is absent (`if (!cursor)`). -/
def CursorParam.isAbsent : CursorParam → Bool
  | .absent => true
  | _ => false

/-- The `dateTime.start` filter contributed by the cursor
(`filters['dateTime.start'] = { $lt: ... }`, `events.js` lines 61-70). -/
def cursorPred (c : CursorParam) (e : Event) : Bool :=
  match c with
  | .parsed t _ => decide (e.start < t)
  | _ => true

/-- The base listing filter for an unauthenticated caller:
`status = 'published'` and `isPublic = true` (`events.js` lines 33-39). -/
def baseMatch (e : Event) : Bool :=
  e.status == EStatus.published && e.isPublic

/-- Insert into a list kept in descending `dateTime.start` order. -/
def insertDesc (e : Event) : List Event → List Event
  | [] => [e]
  | x :: xs => if x.start < e.start then e :: x :: xs else x :: insertDesc e xs

/-- The store's `sort('-dateTime.start')`: descending by start date.  Mongo
leaves the relative order of ties unspecified; this insertion sort realizes
one admissible order. -/
def sortDesc : List Event → List Event
  | [] => []
  | x :: xs => insertDesc x (sortDesc xs)

/-- The documents matched and sorted by the listing query for cursor `c`. -/
def matchedEvents (db : List Event) (c : CursorParam) : List Event :=
  sortDesc (db.filter (fun e => baseMatch e && cursorPred c e))

/-- `eventValidation.list`'s limit rule (`validation.js` lines 200-203):
a supplied limit must be an integer in `[1, 50]`, otherwise the request is
rejected with `VALIDATION_ERROR` before the route body runs. -/
def limitOk : Option Int → Bool
  | some n => decide (1 ≤ n) && decide (n ≤ 50)
  | none => true

/-- `const limitNum = Math.min(parseInt(limit), 50)` with the destructuring
default `limit = 12` (`events.js` lines 16-30). -/
def limitNum (lp : Option Int) : Nat :=
  (min (lp.getD 12) 50).toNat

/-- Listing errors surfaced before a page is produced. -/
inductive ListError
  | validationError
deriving DecidableEq, Repr

/-- The listing response body (`events.js` lines 101-113): the page, the
pagination metadata, and the offset-compatibility `total`/`pages` fields that
are computed only when no cursor parameter was supplied. -/
structure ListResponse where
  events : List Event
  limit : Nat
  hasNextPage : Bool
  nextCursor : Option (Int × Nat)
  total : Option Nat
  pages : Option Nat
deriving DecidableEq, Repr

/-- `GET /api/events`: validation, `limitNum`, cursor handling, fetch of
`limitNum + 1` documents, trim of the extra one, next-cursor generation from
the last kept document, and first-page-only `total`/`pages`. -/
def listEvents (db : List Event) (lp : Option Int) (c : CursorParam) :
    Except ListError ListResponse :=
  if ¬ limitOk lp then .error .validationError
  else
    let L := limitNum lp
    let fetched := (matchedEvents db c).take (L + 1)
    let hasNext := decide (L < fetched.length)
    let page := if hasNext then fetched.take L else fetched
    let nextC := if hasNext then page.getLast?.map (fun e => (e.start, e.id)) else none
    let total := if c.isAbsent then some ((db.filter baseMatch).length) else none
    .ok { events := page, limit := L, hasNextPage := hasNext, nextCursor := nextC,
          total := total, pages := total.map (fun t => (t + L - 1) / L) }

/-- Client-side traversal: request the first page with no cursor, then follow
`nextCursor` while `hasNextPage` holds, concatenating the returned pages.
`fuel` bounds the number of requests. -/
def collectPages (db : List Event) (lp : Option Int) : Nat → CursorParam → List Event
  | 0, _ => []
  | fuel + 1, c =>
    match listEvents db lp c with
    | .error _ => []
    | .ok r =>
      if r.hasNextPage then
        match r.nextCursor with
        | some (t, i) => r.events ++ collectPages db lp fuel (.parsed t i)
        | none => r.events
      else r.events

/-! ## Invariants -/

/-- The §3 capacity equation for a single event record against the ledger:
`available = total - reserved - Σ(quantity of active bookings)`. -/
def invariantFor (db : DB) (e : Event) : Prop :=
  e.capacity.available = e.capacity.total - e.capacity.reserved - activeSum db e.id

/-- The §3 / §8 capacity invariant: every stored event satisfies the
capacity equation. -/
def capacityInvariant (db : DB) : Prop :=
  ∀ e ∈ db.events, invariantFor db e

/-- No stored capacity field is negative. -/
def fieldsNonneg (db : DB) : Prop :=
  ∀ e ∈ db.events,
    0 ≤ e.capacity.total ∧ 0 ≤ e.capacity.reserved ∧ 0 ≤ e.capacity.available

/-- Booking `_id`s are pairwise distinct (Mongo guarantees `_id` uniqueness). -/
def bookingIdsNodup (db : DB) : Prop :=
  (db.bookings.map (fun b => b.id)).Nodup

instance (db : DB) (e : Event) : Decidable (invariantFor db e) := by
  unfold invariantFor; infer_instance

instance (db : DB) : Decidable (capacityInvariant db) := by
  unfold capacityInvariant; infer_instance

instance (db : DB) : Decidable (fieldsNonneg db) := by
  unfold fieldsNonneg; infer_instance

instance (db : DB) : Decidable (bookingIdsNodup db) := by
  unfold bookingIdsNodup; infer_instance

/-! ## Basic store lemmas -/

theorem findEvent_id {db : DB} {eid : Nat} {e : Event}
    (h : findEvent db eid = some e) : e.id = eid := by
  have := List.find?_some h
  simpa using this

theorem findEvent_mem {db : DB} {eid : Nat} {e : Event}
    (h : findEvent db eid = some e) : e ∈ db.events :=
  List.mem_of_find?_eq_some h

theorem findBooking_id {db : DB} {bid : Nat} {b : Booking}
    (h : findBooking db bid = some b) : b.id = bid := by
  have := List.find?_some h
  simpa using this

theorem findBooking_mem {db : DB} {bid : Nat} {b : Booking}
    (h : findBooking db bid = some b) : b ∈ db.bookings :=
  List.mem_of_find?_eq_some h

theorem putEvent_bookings (db : DB) (e : Event) :
    (putEvent db e).bookings = db.bookings := rfl

theorem putBooking_events (db : DB) (b : Booking) :
    (putBooking db b).events = db.events := rfl

theorem activeSum_putEvent (db : DB) (e : Event) (i : Nat) :
    activeSum (putEvent db e) i = activeSum db i := rfl

theorem findEvent_putBooking (db : DB) (b : Booking) (i : Nat) :
    findEvent (putBooking db b) i = findEvent db i := rfl

theorem listActiveSum_append (l₁ l₂ : List Booking) (i : Nat) :
    listActiveSum (l₁ ++ l₂) i = listActiveSum l₁ i + listActiveSum l₂ i := by
  simp [listActiveSum, List.filter_append]

theorem listActiveSum_cons (b : Booking) (l : List Booking) (i : Nat) :
    listActiveSum (b :: l) i =
      (if b.eventId == i && isActive b then (b.quantity : Int) else 0) +
        listActiveSum l i := by
  by_cases h : (b.eventId == i && isActive b) = true
  · simp [listActiveSum, List.filter_cons, h]
  · simp [listActiveSum, List.filter_cons, h]

/-- Updating-by-id decomposition: when booking ids are duplicate-free and
`b₀` is stored, `putBooking`'s map replaces exactly the one occurrence of
`b₀`. -/
theorem map_update_booking_split {l : List Booking} {b₀ : Booking} (b' : Booking)
    (hmem : b₀ ∈ l) (hnd : (l.map (fun b => b.id)).Nodup) :
    ∃ l₁ l₂, l = l₁ ++ b₀ :: l₂ ∧
      l.map (fun x => if x.id == b₀.id then b' else x) = l₁ ++ b' :: l₂ ∧
      (∀ x ∈ l₁, x.id ≠ b₀.id) ∧ (∀ x ∈ l₂, x.id ≠ b₀.id) := by
  induction l with
  | nil => cases hmem
  | cons h t ih =>
    have hnd' : (t.map (fun b => b.id)).Nodup := (List.nodup_cons.mp hnd).2
    have hh : h.id ∉ t.map (fun b => b.id) := (List.nodup_cons.mp hnd).1
    rcases List.mem_cons.mp hmem with rfl | hmem'
    · have ht : ∀ x ∈ t, x.id ≠ b₀.id := by
        intro x hx hxe
        exact hh (List.mem_map.mpr ⟨x, hx, hxe⟩)
      refine ⟨[], t, rfl, ?_, fun x hx => absurd hx (List.not_mem_nil x), ht⟩
      have hmap : t.map (fun x => if x.id == b₀.id then b' else x) = t := by
        have : t.map (fun x => if x.id == b₀.id then b' else x) = t.map id :=
          List.map_congr_left (fun x hx => by
            simp only [id_eq]
            rw [if_neg (by simpa using ht x hx)])
        rw [this, List.map_id]
      rw [List.map_cons, hmap, if_pos (by simp)]
      rfl
    · have hne : h.id ≠ b₀.id := by
        intro he
        exact hh (he ▸ List.mem_map.mpr ⟨b₀, hmem', rfl⟩)
      obtain ⟨l₁, l₂, he1, he2, hl₁, hl₂⟩ := ih hmem' hnd'
      refine ⟨h :: l₁, l₂, by rw [he1]; rfl, ?_, ?_, hl₂⟩
      · rw [List.map_cons, if_neg (by simpa using hne), he2]
        rfl
      · intro x hx
        rcases List.mem_cons.mp hx with rfl | hx'
        · exact hne
        · exact hl₁ x hx'

/-- Generic `find?` lemma: replacing every element matching the searched id
makes `find?` return the replacement exactly when a match existed. -/
theorem find?_update_same (l : List Event) (e : Event) :
    (l.map (fun x => if x.id == e.id then e else x)).find? (fun x => x.id == e.id)
      = (l.find? (fun x => x.id == e.id)).map (fun _ => e) := by
  induction l with
  | nil => rfl
  | cons h t ih =>
    cases hh : (h.id == e.id) with
    | true =>
      simp only [List.map_cons, if_pos hh, List.find?_cons, hh]
      simp
    | false =>
      simp only [List.map_cons, hh, Bool.false_eq_true, if_false, List.find?_cons]
      exact ih

/-- Generic `find?` lemma: an update keyed on a different id does not change
the search result. -/
theorem find?_update_other (l : List Event) (e : Event) (i : Nat) (hne : e.id ≠ i) :
    (l.map (fun x => if x.id == e.id then e else x)).find? (fun x => x.id == i)
      = l.find? (fun x => x.id == i) := by
  induction l with
  | nil => rfl
  | cons h t ih =>
    cases hh : (h.id == e.id) with
    | true =>
      have h1 : h.id = e.id := by simpa using hh
      have h2 : (e.id == i) = false := by simpa using hne
      have h3 : (h.id == i) = false := by rw [h1]; exact h2
      simp only [List.map_cons, if_pos hh, List.find?_cons, h2, h3]
      exact ih
    | false =>
      simp only [List.map_cons, hh, Bool.false_eq_true, if_false, List.find?_cons]
      cases hi : (h.id == i) with
      | true => simp [hi]
      | false =>
        simp only [hi]
        exact ih

/-- `findEvent` after saving an event with the looked-up id: the stored
document becomes the saved one. -/
theorem findEvent_putEvent_same {db : DB} {e : Event} :
    findEvent (putEvent db e) e.id = (findEvent db e.id).map (fun _ => e) :=
  find?_update_same db.events e

/-- `findEvent` for a different id is unaffected by `putEvent`. -/
theorem findEvent_putEvent_other {db : DB} {e : Event} {i : Nat} (hne : e.id ≠ i) :
    findEvent (putEvent db e) i = findEvent db i :=
  find?_update_other db.events e i hne

/-- The event document written by a successful capacity recompute. -/
def recomputed (db : DB) (ev : Event) : Event :=
  { ev with capacity :=
    { ev.capacity with
        available := ev.capacity.total - ev.capacity.reserved - activeSum db ev.id } }

theorem recomputed_id (db : DB) (ev : Event) : (recomputed db ev).id = ev.id := rfl

/-- A successful `updateAvailableCapacity` writes exactly the recomputed
document, and its save guards held. -/
theorem updateAvail_ok_eq {db : DB} {ev : Event} {db' : DB}
    (h : updateAvailableCapacity db ev = .ok db') :
    db' = putEvent db (recomputed db ev) ∧
      ev.capacity.reserved ≤ ev.capacity.total ∧
      0 ≤ ev.capacity.total - ev.capacity.reserved - activeSum db ev.id := by
  unfold updateAvailableCapacity saveEvent at h
  dsimp only at h
  split_ifs at h with h1 h2
  · refine ⟨?_, by omega, by omega⟩
    cases h
    rfl

/-- `updateAvailableCapacity` succeeds when its save guards hold. -/
theorem updateAvail_ok_of {db : DB} {ev : Event}
    (h1 : ev.capacity.reserved ≤ ev.capacity.total)
    (h2 : 0 ≤ ev.capacity.total - ev.capacity.reserved - activeSum db ev.id) :
    updateAvailableCapacity db ev = .ok (putEvent db (recomputed db ev)) := by
  unfold updateAvailableCapacity saveEvent
  dsimp only
  rw [if_neg (by omega), if_neg (by omega)]
  rfl

/-- After a successful recompute for `ev`, the whole store satisfies the
capacity invariant provided every other event already did. -/
theorem updateAvail_ok_inv {db : DB} {ev : Event} {db' : DB}
    (hrest : ∀ e ∈ db.events, e.id ≠ ev.id → invariantFor db e)
    (h : updateAvailableCapacity db ev = .ok db') :
    capacityInvariant db' := by
  obtain ⟨rfl, -, -⟩ := updateAvail_ok_eq h
  intro e he
  obtain ⟨x, hx, rfl⟩ := List.mem_map.mp he
  by_cases hxe : (x.id == (recomputed db ev).id) = true
  · rw [if_pos hxe]
    simp [invariantFor, recomputed, activeSum, putEvent]
  · rw [if_neg hxe]
    have hne : x.id ≠ ev.id := by simpa [recomputed_id] using hxe
    have := hrest x hx hne
    simpa [invariantFor, activeSum, putEvent] using this

theorem fieldsNonneg_putEvent {db : DB} {e : Event} (hdb : fieldsNonneg db)
    (he : 0 ≤ e.capacity.total ∧ 0 ≤ e.capacity.reserved ∧ 0 ≤ e.capacity.available) :
    fieldsNonneg (putEvent db e) := by
  intro x hx
  obtain ⟨y, hy, rfl⟩ := List.mem_map.mp hx
  by_cases hye : (y.id == e.id) = true
  · rw [if_pos hye]; exact he
  · rw [if_neg hye]; exact hdb y hy

/-- A successful recompute keeps every capacity field non-negative. -/
theorem updateAvail_ok_nonneg {db : DB} {ev : Event} {db' : DB}
    (hdb : fieldsNonneg db) (hev : ev ∈ db.events)
    (h : updateAvailableCapacity db ev = .ok db') :
    fieldsNonneg db' := by
  obtain ⟨rfl, -, h2⟩ := updateAvail_ok_eq h
  refine fieldsNonneg_putEvent hdb ?_
  obtain ⟨ht, hr, -⟩ := hdb ev hev
  exact ⟨ht, hr, by simpa [recomputed] using h2⟩

theorem listActiveSum_single (b : Booking) (i : Nat) :
    listActiveSum [b] i =
      (if b.eventId == i && isActive b then (b.quantity : Int) else 0) := by
  rw [show ([b] : List Booking) = b :: [] from rfl, listActiveSum_cons]
  simp [listActiveSum]

/-- Appending one booking for a different event leaves an event's active
aggregate unchanged. -/
theorem activeSum_append_other {db : DB} {b : Booking} {i : Nat}
    (hne : b.eventId ≠ i) :
    activeSum { db with bookings := db.bookings ++ [b] } i = activeSum db i := by
  show listActiveSum (db.bookings ++ [b]) i = listActiveSum db.bookings i
  rw [listActiveSum_append, listActiveSum_single,
    if_neg (by simp [hne]), add_zero]

/-- Bookings-only changes do not affect the events collection, hence keep
`fieldsNonneg`. -/
theorem fieldsNonneg_bookings {db : DB} (l : List Booking) (hnn : fieldsNonneg db) :
    fieldsNonneg { db with bookings := l } := hnn

/-- A successful booking creation leaves the store satisfying the capacity
invariant, with all capacity fields non-negative. -/
theorem createBooking_settled {now : Int} {db : DB} {newId bid : Nat} {r : CreateReq}
    {st : BStatus} {db' : DB}
    (hinv : capacityInvariant db) (hnn : fieldsNonneg db)
    (h : createBooking now db newId r = (.created bid st, db')) :
    capacityInvariant db' ∧ fieldsNonneg db' := by
  unfold createBooking at h
  split at h
  · cases h
  next ev hfe =>
    have hevid : ev.id = r.eventId := findEvent_id hfe
    split at h
    · cases h
    split at h
    · cases h
    split at h
    · cases h
    split at h
    · cases h
    split at h
    · cases h
    dsimp only at h
    split at h
    next hnone =>
      rw [show findEvent { db with bookings := db.bookings ++
          [{ id := newId, eventId := r.eventId, userId := r.userId,
             status := if ev.requiresApproval then BStatus.pending else BStatus.confirmed,
             quantity := r.quantity, cancelReason := none }] } r.eventId
          = findEvent db r.eventId from rfl, hfe] at hnone
      cases hnone
    next ev1 hfe1 =>
      rw [show findEvent { db with bookings := db.bookings ++
          [{ id := newId, eventId := r.eventId, userId := r.userId,
             status := if ev.requiresApproval then BStatus.pending else BStatus.confirmed,
             quantity := r.quantity, cancelReason := none }] } r.eventId
          = findEvent db r.eventId from rfl, hfe] at hfe1
      obtain rfl : ev = ev1 := Option.some.inj hfe1
      split at h
      next db2 hup =>
        cases h
        constructor
        · refine updateAvail_ok_inv ?_ hup
          intro e he hne
          have hbase := hinv e he
          show e.capacity.available = e.capacity.total - e.capacity.reserved - _
          rw [activeSum_append_other (by rw [← hevid]; exact fun hc => hne hc.symm)]
          exact hbase
        · refine updateAvail_ok_nonneg ?_ ?_ hup
          · exact hnn
          · exact findEvent_mem hfe
      next e0 herr => cases h

/-- Contribution of one booking to an event's active aggregate. -/
def contrib (i : Nat) (b : Booking) : Int :=
  if b.eventId == i && isActive b then (b.quantity : Int) else 0

/-- Replacing the stored booking `b₀` by `b'` (same id, duplicate-free ids)
shifts each event's active aggregate by the contribution difference. -/
theorem activeSum_putBooking {db : DB} {b₀ : Booking} (b' : Booking) (i : Nat)
    (hmem : b₀ ∈ db.bookings) (hnd : bookingIdsNodup db) (hid : b'.id = b₀.id) :
    activeSum (putBooking db b') i = activeSum db i - contrib i b₀ + contrib i b' := by
  obtain ⟨l₁, l₂, he1, he2, -, -⟩ := map_update_booking_split b' hmem hnd
  show listActiveSum (db.bookings.map (fun x => if x.id == b'.id then b' else x)) i = _
  have hpred : (fun x : Booking => if x.id == b'.id then b' else x)
      = (fun x : Booking => if x.id == b₀.id then b' else x) := by
    funext x
    rw [hid]
  rw [hpred, he2]
  conv_rhs => rw [show activeSum db i = listActiveSum db.bookings i from rfl, he1]
  rw [listActiveSum_append, listActiveSum_append, listActiveSum_cons, listActiveSum_cons]
  show _ + ((if (b'.eventId == i && isActive b') = true then (b'.quantity : Int) else 0) + _)
    = _ + ((if (b₀.eventId == i && isActive b₀) = true then (b₀.quantity : Int) else 0) + _)
      - contrib i b₀ + contrib i b'
  unfold contrib
  omega

/-- A successful booking cancellation leaves the store satisfying the
capacity invariant, with all capacity fields non-negative. -/
theorem cancelBooking_settled {now : Int} {db : DB} {bid : Nat} {c : Caller}
    {reason : Option Reason} {db' : DB}
    (hinv : capacityInvariant db) (hnn : fieldsNonneg db) (hnd : bookingIdsNodup db)
    (h : cancelBookingRoute now db bid c reason = (.ok, db')) :
    capacityInvariant db' ∧ fieldsNonneg db' := by
  unfold cancelBookingRoute at h
  split at h
  · cases h
  next b hfb =>
    split at h
    · cases h
    next ev hfe =>
      have hevid : ev.id = b.eventId := findEvent_id hfe
      split at h
      · cases h
      split at h
      · cases h
      split at h
      · cases h
      dsimp only at h
      split at h
      next hnone =>
        rw [show findEvent (putBooking db
            { b with status := BStatus.cancelled,
                     cancelReason := some (reason.getD Reason.cancelledByUser) }) b.eventId
            = findEvent db b.eventId from rfl, hfe] at hnone
        cases hnone
      next ev1 hfe1 =>
        rw [show findEvent (putBooking db
            { b with status := BStatus.cancelled,
                     cancelReason := some (reason.getD Reason.cancelledByUser) }) b.eventId
            = findEvent db b.eventId from rfl, hfe] at hfe1
        obtain rfl : ev = ev1 := Option.some.inj hfe1
        split at h
        next db2 hup =>
          cases h
          constructor
          · refine updateAvail_ok_inv ?_ hup
            intro e he hne
            have hbase := hinv e he
            show e.capacity.available = e.capacity.total - e.capacity.reserved - _
            rw [activeSum_putBooking
              { b with status := BStatus.cancelled,
                       cancelReason := some (reason.getD Reason.cancelledByUser) }
              e.id (findBooking_mem hfb) hnd rfl]
            have hb0 : contrib e.id b = 0 := by
              unfold contrib
              rw [if_neg (by
                simp only [Bool.and_eq_true, beq_iff_eq]
                rintro ⟨hc, -⟩
                exact hne (hc ▸ hevid.symm))]
            have hb' : contrib e.id
                { b with status := BStatus.cancelled,
                         cancelReason := some (reason.getD Reason.cancelledByUser) } = 0 := by
              unfold contrib
              rw [if_neg (by
                simp only [Bool.and_eq_true, beq_iff_eq]
                rintro ⟨hc, -⟩
                exact hne (hc ▸ hevid.symm))]
            unfold invariantFor at hbase
            rw [hb0, hb']
            omega
          · refine updateAvail_ok_nonneg ?_ ?_ hup
            · exact hnn
            · exact findEvent_mem hfe
        next e0 herr => cases h

/-- A successful booking confirmation leaves the store satisfying the
capacity invariant, with all capacity fields non-negative. -/
theorem confirmBooking_settled {db : DB} {bid : Nat} {c : Caller} {db' : DB}
    (hinv : capacityInvariant db) (hnn : fieldsNonneg db) (hnd : bookingIdsNodup db)
    (h : confirmBookingRoute db bid c = (.ok, db')) :
    capacityInvariant db' ∧ fieldsNonneg db' := by
  unfold confirmBookingRoute at h
  split at h
  · cases h
  split at h
  · cases h
  next b hfb =>
    split at h
    · cases h
    next ev hfe =>
      have hevid : ev.id = b.eventId := findEvent_id hfe
      split at h
      · cases h
      split at h
      · cases h
      dsimp only at h
      split at h
      next hnone =>
        rw [show findEvent (putBooking db { b with status := BStatus.confirmed }) b.eventId
            = findEvent db b.eventId from rfl, hfe] at hnone
        cases hnone
      next ev1 hfe1 =>
        rw [show findEvent (putBooking db { b with status := BStatus.confirmed }) b.eventId
            = findEvent db b.eventId from rfl, hfe] at hfe1
        obtain rfl : ev = ev1 := Option.some.inj hfe1
        split at h
        next db2 hup =>
          cases h
          constructor
          · refine updateAvail_ok_inv ?_ hup
            intro e he hne
            have hbase := hinv e he
            unfold invariantFor at hbase ⊢
            rw [show activeSum (putBooking db { b with status := BStatus.confirmed }) e.id
                = activeSum db e.id - contrib e.id b
                  + contrib e.id { b with status := BStatus.confirmed } from
              activeSum_putBooking { b with status := BStatus.confirmed } e.id
                (findBooking_mem hfb) hnd rfl]
            have hb0 : contrib e.id b = 0 := by
              unfold contrib
              rw [if_neg (by
                simp only [Bool.and_eq_true, beq_iff_eq]
                rintro ⟨hc, -⟩
                exact hne (hc ▸ hevid.symm))]
            have hb' : contrib e.id { b with status := BStatus.confirmed } = 0 := by
              unfold contrib
              rw [if_neg (by
                simp only [Bool.and_eq_true, beq_iff_eq]
                rintro ⟨hc, -⟩
                exact hne (hc ▸ hevid.symm))]
            rw [hb0, hb']
            omega
          · refine updateAvail_ok_nonneg ?_ ?_ hup
            · exact hnn
            · exact findEvent_mem hfe
        next e0 herr => cases h

/-- A successful event update (via `findByIdAndUpdate` followed by the
recompute) leaves the store satisfying the capacity invariant, with all
capacity fields non-negative. -/
theorem updateEvent_settled {db : DB} {eid : Nat} {c : Caller}
    {body : EventUpdateBody} {db' : DB}
    (hinv : capacityInvariant db) (hnn : fieldsNonneg db)
    (h : updateEventRoute db eid c body = (.ok, db')) :
    capacityInvariant db' ∧ fieldsNonneg db' := by
  unfold updateEventRoute at h
  split at h
  · cases h
  split at h
  · cases h
  next ev hfe =>
    have hevid : ev.id = eid := findEvent_id hfe
    split at h
    · cases h
    split at h
    · cases h
    split at h
    · cases h
    next hval =>
      rw [not_not, Bool.and_eq_true] at hval
      obtain ⟨hval1, hval2⟩ := hval
      dsimp only at h
      rw [show (findEvent (putEvent db
          { ev with capacity :=
            { ev.capacity with
                total := body.total.getD ev.capacity.total,
                reserved := body.reserved.getD ev.capacity.reserved } }) eid : Option Event)
          = (findEvent db eid).map (fun _ =>
            { ev with capacity :=
              { ev.capacity with
                  total := body.total.getD ev.capacity.total,
                  reserved := body.reserved.getD ev.capacity.reserved } }) from by
        rw [← hevid]
        exact findEvent_putEvent_same, hfe] at h
      dsimp only [Option.map] at h
      split at h
      next db2 hup =>
        cases h
        constructor
        · refine updateAvail_ok_inv ?_ hup
          intro e he hne
          obtain ⟨x, hx, rfl⟩ := List.mem_map.mp he
          rw [if_neg (fun hxe => absurd (by rw [if_pos hxe]) hne)]
          have hbase := hinv x hx
          unfold invariantFor at hbase ⊢
          exact hbase
        · refine updateAvail_ok_nonneg ?_ ?_ hup
          · refine fieldsNonneg_putEvent hnn ?_
            obtain ⟨ht, hr, ha⟩ := hnn ev (findEvent_mem hfe)
            refine ⟨?_, ?_, ha⟩
            · cases hbt : body.total with
              | none => simpa using ht
              | some t =>
                rw [hbt] at hval1
                simp only [decide_eq_true_eq] at hval1
                simp only [Option.getD]
                omega
            · cases hbr : body.reserved with
              | none => simpa using hr
              | some rv =>
                rw [hbr] at hval2
                simp only [decide_eq_true_eq] at hval2
                simp only [Option.getD]
                omega
          · refine List.mem_map.mpr ⟨ev, findEvent_mem hfe, ?_⟩
            rw [if_pos (by simp)]
      next e0 herr => cases h

/-- A successful event cancellation (status save plus cascade `updateMany`)
keeps every capacity field non-negative: the cascade never touches capacity
fields at all. -/
theorem cancelEvent_nonneg {db : DB} {eid : Nat} {c : Caller} {db' : DB}
    (hnn : fieldsNonneg db)
    (h : cancelEventRoute db eid c = (.ok, db')) :
    fieldsNonneg db' := by
  unfold cancelEventRoute at h
  split at h
  · cases h
  split at h
  · cases h
  next ev hfe =>
    split at h
    · cases h
    split at h
    · cases h
    cases hs : saveEvent db { ev with status := EStatus.cancelled } with
    | error e0 =>
      rw [hs] at h
      cases h
    | ok db1 =>
      rw [hs] at h
      dsimp only at h
      cases h
      unfold saveEvent at hs
      split_ifs at hs
      obtain rfl : putEvent db { ev with status := EStatus.cancelled } = db1 :=
        Except.ok.inj hs
      intro e he
      obtain ⟨y, hy, rfl⟩ := List.mem_map.mp he
      by_cases hye : (y.id == ({ ev with status := EStatus.cancelled } : Event).id) = true
      · rw [if_pos hye]
        exact hnn ev (findEvent_mem hfe)
      · rw [if_neg hye]
        exact hnn y hy

/-! ## Claim C2 -/

/-- Concrete state for the C2 counterexample: one published event with
`total = 2`, one confirmed booking of quantity 2, `available = 0`. -/
def c2Event : Event :=
  { id := 1, organizerId := 9, status := EStatus.published, start := 7200000000,
    capacity := { total := 2, reserved := 0, available := 0 },
    requiresApproval := false, isPublic := true }

def c2DB : DB :=
  { events := [c2Event],
    bookings := [{ id := 50, eventId := 1, userId := 20,
                   status := BStatus.confirmed, quantity := 2, cancelReason := none }] }

/-- Claim C2 as stated is false: the event-cancellation cascade is a settled
mutation (it returns success) after which
`available = total - reserved - Σ(active quantities)` fails, because the bulk
`updateMany` bypasses the capacity recompute.  Concretely: the invariant
holds before (`0 = 2 - 0 - 2`), the cascade cancels the booking, and
afterwards `available` is still `0` while the active sum is `0`
(`0 ≠ 2 - 0 - 0`). -/
theorem claim_C2_counterexample :
    capacityInvariant c2DB ∧
    (cancelEventRoute c2DB 1 { id := 9, role := Role.organizer }).1 = .ok ∧
    ¬ capacityInvariant
        (cancelEventRoute c2DB 1 { id := 9, role := Role.organizer }).2 := by
  refine ⟨by decide, by decide, by decide⟩

/-- Amended claim C2: after every settled (successful) booking creation,
booking cancellation, booking confirmation, and event update, the event
stores satisfy `available = total - reserved - Σ(active quantities)` and all
capacity fields stay non-negative; the event-cancellation cascade keeps the
fields non-negative but is excluded from the equational invariant (it leaves
`available` stale). -/
theorem claim_C2_amended :
    (∀ (now : Int) (db : DB) (newId bid : Nat) (r : CreateReq) (st : BStatus) (db' : DB),
      capacityInvariant db → fieldsNonneg db →
      createBooking now db newId r = (.created bid st, db') →
      capacityInvariant db' ∧ fieldsNonneg db') ∧
    (∀ (now : Int) (db : DB) (bid : Nat) (c : Caller) (reason : Option Reason) (db' : DB),
      capacityInvariant db → fieldsNonneg db → bookingIdsNodup db →
      cancelBookingRoute now db bid c reason = (.ok, db') →
      capacityInvariant db' ∧ fieldsNonneg db') ∧
    (∀ (db : DB) (bid : Nat) (c : Caller) (db' : DB),
      capacityInvariant db → fieldsNonneg db → bookingIdsNodup db →
      confirmBookingRoute db bid c = (.ok, db') →
      capacityInvariant db' ∧ fieldsNonneg db') ∧
    (∀ (db : DB) (eid : Nat) (c : Caller) (body : EventUpdateBody) (db' : DB),
      capacityInvariant db → fieldsNonneg db →
      updateEventRoute db eid c body = (.ok, db') →
      capacityInvariant db' ∧ fieldsNonneg db') ∧
    (∀ (db : DB) (eid : Nat) (c : Caller) (db' : DB),
      fieldsNonneg db →
      cancelEventRoute db eid c = (.ok, db') → fieldsNonneg db') :=
  ⟨fun _ _ _ _ _ _ _ hi hn h => createBooking_settled hi hn h,
   fun _ _ _ _ _ _ hi hn hd h => cancelBooking_settled hi hn hd h,
   fun _ _ _ _ hi hn hd h => confirmBooking_settled hi hn hd h,
   fun _ _ _ _ _ hi hn h => updateEvent_settled hi hn h,
   fun _ _ _ _ hn h => cancelEvent_nonneg hn h⟩

/-- Concrete state for the C2 witness: a fresh published event. -/
def c2wEvent : Event :=
  { id := 3, organizerId := 9, status := EStatus.published, start := 7200000000,
    capacity := { total := 5, reserved := 1, available := 4 },
    requiresApproval := false, isPublic := true }

def c2wDB : DB := { events := [c2wEvent], bookings := [] }

def c2wReq : CreateReq := { eventId := 3, userId := 21, quantity := 2, attendeeCount := 2 }

theorem claim_C2_witness :
    capacityInvariant c2wDB ∧ fieldsNonneg c2wDB ∧
    capacityInvariant (createBooking 0 c2wDB 100 c2wReq).2 ∧
    fieldsNonneg (createBooking 0 c2wDB 100 c2wReq).2 := by
  have h := claim_C2_amended.1 0 c2wDB 100 100 c2wReq BStatus.confirmed
    (createBooking 0 c2wDB 100 c2wReq).2 (by decide) (by decide) (by decide)
  exact ⟨by decide, by decide, h.1, h.2⟩

/-! ## Claim C1 -/

/-- C1 race scenario: one event with `available = k = 2`. -/
def c1Event : Event :=
  { id := 1, organizerId := 99, status := EStatus.published, start := 3600000000,
    capacity := { total := 2, reserved := 0, available := 2 },
    requiresApproval := false, isPublic := true }

def c1DB : DB := { events := [c1Event], bookings := [] }

/-- First concurrent request: user 10 asks for 2 tickets. -/
def c1Req0 : ReqState :=
  { req := { eventId := 1, userId := 10, quantity := 2, attendeeCount := 2 },
    newId := 100, pc := 0, snap := none, result := none }

/-- Second concurrent request: user 11 asks for 1 ticket. -/
def c1Req1 : ReqState :=
  { req := { eventId := 1, userId := 11, quantity := 1, attendeeCount := 1 },
    newId := 101, pc := 0, snap := none, result := none }

/-- The racing schedule: both requests run their guard phase (and read
`available = 2`) before either writes. -/
def c1Schedule : List Bool := [false, true, false, false, true, true]

def c1Final : DB × ReqState × ReqState :=
  runSchedule 0 c1Schedule c1DB c1Req0 c1Req1

/-- Claim C1 is violated by the code: booking creation is a read-then-write
sequence, not an atomic conditional decrement.  Under the schedule in which
both requests pass the capacity check against `available = 2` before either
writes, both ledger rows are inserted: the active quantities sum to `3 > 2`,
the second request fails with a 500 internal error (the post-save recompute
hits the negative-available save guard) instead of `INSUFFICIENT_CAPACITY`,
its ledger row remains, the stored `available` is `0`, and the capacity
invariant is broken. -/
theorem claim_C1_race_overbooks :
    c1Final.2.1.result = some (.created 100 BStatus.confirmed) ∧
    c1Final.2.2.result = some (.internalError SaveErr.negativeAvailable) ∧
    c1Final.2.2.result ≠ some CreateResult.insufficientCapacity ∧
    activeSum c1Final.1 1 = 3 ∧
    (findEvent c1Final.1 1).map (fun e => e.capacity.available) = some 0 ∧
    ¬ capacityInvariant c1Final.1 := by
  refine ⟨by decide, by decide, by decide, by decide, by decide, by decide⟩

/-! ## Claim C3 -/

/-- C3 scenario: a published future event with plenty of capacity. -/
def c3Event : Event :=
  { id := 1, organizerId := 99, status := EStatus.published, start := 3600000000,
    capacity := { total := 5, reserved := 0, available := 5 },
    requiresApproval := false, isPublic := true }

def c3DB : DB := { events := [c3Event], bookings := [] }

def c3Req : CreateReq := { eventId := 1, userId := 10, quantity := 2, attendeeCount := 2 }

/-- State after user 10's first booking. -/
def c3AfterCreate : DB := (createBooking 0 c3DB 100 c3Req).2

/-- State after user 10 cancels that booking (well before the 24-hour
window: the event is 1000 hours away). -/
def c3AfterCancel : DB :=
  (cancelBookingRoute 0 c3AfterCreate 100 { id := 10, role := Role.user } none).2

/-- Claim C3 is violated by the code: after a requester cancels their booking
the active-status pre-check passes, but re-booking the same event fails
anyway, because the unique index `{eventId, userId}` has no partial filter
and still sees the cancelled row — the insert raises E11000, surfaced as a
400 `DUPLICATE_FIELD` response, not a success. -/
theorem claim_C3_rebooking_blocked :
    (createBooking 0 c3DB 100 c3Req).1 = .created 100 BStatus.confirmed ∧
    (cancelBookingRoute 0 c3AfterCreate 100 { id := 10, role := Role.user } none).1
      = .ok ∧
    (findBooking c3AfterCancel 100).map (fun b => b.status)
      = some BStatus.cancelled ∧
    checkDuplicateBooking c3AfterCancel 1 10 = false ∧
    (createBooking 0 c3AfterCancel 101 c3Req).1 = .duplicateField ∧
    (createBooking 0 c3AfterCancel 101 c3Req).2 = c3AfterCancel := by
  refine ⟨by decide, by decide, by decide, by decide, by decide, by decide⟩

/-! ## Claim C10 -/

/-- Claim C10: for an existing, published, future event with
`available = 0`, booking creation fails with `EVENT_NOT_BOOKABLE` (the
`isBookable` guard requires `available > 0` and runs before the capacity
comparison); and `INSUFFICIENT_CAPACITY` is returned only when
`0 < available < quantity`. -/
theorem claim_C10_not_bookable_vs_insufficient :
    (∀ (now : Int) (db : DB) (newId : Nat) (r : CreateReq) (ev : Event),
      findEvent db r.eventId = some ev →
      ev.status = EStatus.published →
      now < ev.start →
      ev.capacity.available = 0 →
      (createBooking now db newId r).1 = .eventNotBookable) ∧
    (∀ (now : Int) (db : DB) (newId : Nat) (r : CreateReq) (db' : DB),
      createBooking now db newId r = (.insufficientCapacity, db') →
      ∃ ev, findEvent db r.eventId = some ev ∧
        0 < ev.capacity.available ∧ ev.capacity.available < (r.quantity : Int)) := by
  constructor
  · intro now db newId r ev hfe hpub hfut h0
    unfold createBooking
    rw [hfe]
    dsimp only
    rw [if_pos (by simp [isBookable, h0])]
  · intro now db newId r db' h
    unfold createBooking at h
    split at h
    · cases h
    next ev hfe =>
      split at h
      · cases h
      next hbk =>
        split at h
        · cases h
        split at h
        next hcap =>
          refine ⟨ev, hfe, ?_, hcap⟩
          have : isBookable now ev = true := by
            rcases hb : isBookable now ev with _ | _
            · exact absurd (by rw [hb]; decide) hbk
            · rfl
          unfold isBookable at this
          simp only [Bool.and_eq_true, decide_eq_true_eq] at this
          exact this.2
        split at h
        · cases h
        split at h
        · cases h
        dsimp only at h
        split at h
        · cases h
        split at h
        · cases h
        · cases h

/-! ## Claim C7 -/

/-- Claim C7: on a pending/confirmed booking whose caller passes the
permission check, the cancellation request is rejected with
`CANCELLATION_DEADLINE_PASSED` exactly when the event starts in under 24
hours AND the caller is the booking's requester; organizers and admins who
are not the requester are never subject to the window. -/
theorem claim_C7_deadline_window :
    ∀ (now : Int) (db : DB) (bid : Nat) (c : Caller) (reason : Option Reason)
      (b : Booking) (ev : Event),
      findBooking db bid = some b →
      findEvent db b.eventId = some ev →
      (b.userId == c.id || ev.organizerId == c.id || c.role == Role.admin) = true →
      canBeCancelled b = true →
      ((cancelBookingRoute now db bid c reason).1 = .deadlinePassed ↔
        (ev.start - now < deadlineMs ∧ b.userId = c.id)) := by
  intro now db bid c reason b ev hfb hfe hauth hcc
  unfold cancelBookingRoute
  rw [hfb]
  dsimp only
  rw [hfe]
  dsimp only
  rw [if_neg (by rw [hauth]; exact not_not_intro rfl),
    if_neg (by rw [hcc]; exact not_not_intro rfl)]
  by_cases hd : (decide (ev.start - now < deadlineMs) && (b.userId == c.id)) = true
  · rw [if_pos hd]
    simp only [Bool.and_eq_true, decide_eq_true_eq, beq_iff_eq] at hd
    simpa using hd
  · rw [if_neg hd]
    constructor
    · intro hL
      exfalso
      rw [show findEvent (putBooking db
          { b with status := BStatus.cancelled,
                   cancelReason := some (reason.getD Reason.cancelledByUser) }) b.eventId
          = findEvent db b.eventId from rfl, hfe] at hL
      dsimp only at hL
      cases hup : updateAvailableCapacity (putBooking db
          { b with status := BStatus.cancelled,
                   cancelReason := some (reason.getD Reason.cancelledByUser) }) ev with
      | ok db2 =>
        rw [hup] at hL
        cases hL
      | error e0 =>
        rw [hup] at hL
        cases hL
    · intro hR
      exact absurd (by
        simp only [Bool.and_eq_true, decide_eq_true_eq, beq_iff_eq]
        exact hR) hd

/-- Witness event for C10: published, future-dated, `available = 0`. -/
def c10Event : Event :=
  { id := 1, organizerId := 9, status := EStatus.published, start := 7200000000,
    capacity := { total := 2, reserved := 0, available := 0 },
    requiresApproval := false, isPublic := true }

def c10DB : DB :=
  { events := [c10Event],
    bookings := [{ id := 50, eventId := 1, userId := 20,
                   status := BStatus.confirmed, quantity := 2, cancelReason := none }] }

def c10Req : CreateReq := { eventId := 1, userId := 30, quantity := 1, attendeeCount := 1 }

theorem claim_C10_witness :
    (createBooking 0 c10DB 100 c10Req).1 = .eventNotBookable :=
  claim_C10_not_bookable_vs_insufficient.1 0 c10DB 100 c10Req c10Event
    (by decide) (by decide) (by decide) (by decide)

/-- Witness scenario for C7: the requester tries to cancel 1000 seconds
before the event — inside the 24-hour window. -/
def c7Event : Event :=
  { id := 1, organizerId := 9, status := EStatus.published, start := 1000000,
    capacity := { total := 5, reserved := 0, available := 3 },
    requiresApproval := false, isPublic := true }

def c7Booking : Booking :=
  { id := 60, eventId := 1, userId := 20, status := BStatus.confirmed,
    quantity := 2, cancelReason := none }

def c7DB : DB := { events := [c7Event], bookings := [c7Booking] }

theorem claim_C7_witness :
    (cancelBookingRoute 0 c7DB 60 { id := 20, role := Role.user } none).1
      = .deadlinePassed :=
  (claim_C7_deadline_window 0 c7DB 60 { id := 20, role := Role.user } none
    c7Booking c7Event (by decide) (by decide) (by decide) (by decide)).mpr
    (by constructor <;> decide)

/-! ## Claim C5 -/

theorem isActive_of_canBeCancelled {b : Booking} (h : canBeCancelled b = true) :
    isActive b = true := by
  unfold canBeCancelled at h
  unfold isActive
  cases hb : b.status <;> rw [hb] at h <;> first | rfl | cases h

/-- Booking analog of `find?_update_same`. -/
theorem find?_update_same_booking (l : List Booking) (b : Booking) :
    (l.map (fun x => if x.id == b.id then b else x)).find? (fun x => x.id == b.id)
      = (l.find? (fun x => x.id == b.id)).map (fun _ => b) := by
  induction l with
  | nil => rfl
  | cons h t ih =>
    cases hh : (h.id == b.id) with
    | true =>
      simp only [List.map_cons, if_pos hh, List.find?_cons, hh]
      simp
    | false =>
      simp only [List.map_cons, hh, Bool.false_eq_true, if_false, List.find?_cons]
      exact ih

/-- Claim C5: on a pending/confirmed booking of quantity `q` (with an
authorized caller outside the 24-hour window), the first cancellation
succeeds and the event's stored `available` increases by exactly `q`; a
second cancellation of the same booking fails with
`BOOKING_CANNOT_BE_CANCELLED` and changes nothing. -/
theorem claim_C5_cancel_exactly_once :
    ∀ (now : Int) (db : DB) (bid : Nat) (c : Caller) (reason : Option Reason)
      (b : Booking) (ev : Event),
      capacityInvariant db → fieldsNonneg db → bookingIdsNodup db →
      findBooking db bid = some b →
      findEvent db b.eventId = some ev →
      canBeCancelled b = true →
      (b.userId == c.id || ev.organizerId == c.id || c.role == Role.admin) = true →
      (decide (ev.start - now < deadlineMs) && (b.userId == c.id)) = false →
      ev.capacity.reserved ≤ ev.capacity.total →
      ∃ db',
        cancelBookingRoute now db bid c reason = (.ok, db') ∧
        (findEvent db' b.eventId).map (fun e => e.capacity.available)
          = some (ev.capacity.available + (b.quantity : Int)) ∧
        cancelBookingRoute now db' bid c reason = (.cannotBeCancelled, db') := by
  intro now db bid c reason b ev hinv hnn hnd hfb hfe hcc hauth hdl hrt
  have hevid : ev.id = b.eventId := findEvent_id hfe
  have hbid : b.id = bid := findBooking_id hfb
  have hq0 : (0 : Int) ≤ ev.capacity.available := (hnn ev (findEvent_mem hfe)).2.2
  have hbase : invariantFor db ev := hinv ev (findEvent_mem hfe)
  unfold invariantFor at hbase
  -- the cancelled replacement row
  set b' : Booking :=
    { b with status := BStatus.cancelled,
             cancelReason := some (reason.getD Reason.cancelledByUser) } with hb'
  -- aggregate after the booking save: exactly q fewer active tickets
  have hsum : activeSum (putBooking db b') ev.id
      = activeSum db ev.id - (b.quantity : Int) := by
    rw [activeSum_putBooking b' ev.id (findBooking_mem hfb) hnd rfl]
    have hc0 : contrib ev.id b = (b.quantity : Int) := by
      unfold contrib
      rw [if_pos (by
        simp only [Bool.and_eq_true, beq_iff_eq]
        exact ⟨hevid.symm, isActive_of_canBeCancelled hcc⟩)]
    have hc' : contrib ev.id b' = 0 := by
      unfold contrib
      rw [if_neg (by
        simp only [hb', Bool.and_eq_true]
        rintro ⟨-, hact⟩
        cases hact)]
    rw [hc0, hc']
    omega
  have hup : updateAvailableCapacity (putBooking db b') ev
      = .ok (putEvent (putBooking db b') (recomputed (putBooking db b') ev)) :=
    updateAvail_ok_of hrt (by rw [hsum]; omega)
  refine ⟨putEvent (putBooking db b') (recomputed (putBooking db b') ev), ?_, ?_, ?_⟩
  · unfold cancelBookingRoute
    rw [hfb]
    dsimp only
    rw [hfe]
    dsimp only
    rw [if_neg (by rw [hauth]; exact not_not_intro rfl),
      if_neg (by rw [hcc]; exact not_not_intro rfl),
      if_neg (by rw [hdl]; exact Bool.false_ne_true)]
    rw [show findEvent (putBooking db b') b.eventId = findEvent db b.eventId from rfl, hfe]
    dsimp only
    rw [hup]
  · rw [show findEvent (putEvent (putBooking db b')
        (recomputed (putBooking db b') ev)) b.eventId
        = (findEvent (putBooking db b') b.eventId).map
            (fun _ => recomputed (putBooking db b') ev) from by
      rw [← show (recomputed (putBooking db b') ev).id = b.eventId from hevid]
      exact findEvent_putEvent_same]
    rw [show findEvent (putBooking db b') b.eventId = findEvent db b.eventId from rfl, hfe]
    show some (ev.capacity.total - ev.capacity.reserved - activeSum (putBooking db b') ev.id)
      = _
    rw [hsum]
    congr 1
    omega
  · unfold cancelBookingRoute
    rw [show findBooking (putEvent (putBooking db b')
        (recomputed (putBooking db b') ev)) bid
        = findBooking (putBooking db b') bid from rfl]
    rw [show findBooking (putBooking db b') bid
        = (findBooking db bid).map (fun _ => b') from by
      rw [← hbid]
      exact find?_update_same_booking db.bookings b', hfb]
    dsimp only [Option.map]
    rw [show findEvent (putEvent (putBooking db b')
        (recomputed (putBooking db b') ev)) b.eventId
        = (findEvent (putBooking db b') b.eventId).map
            (fun _ => recomputed (putBooking db b') ev) from by
      rw [← show (recomputed (putBooking db b') ev).id = b.eventId from hevid]
      exact findEvent_putEvent_same]
    rw [show findEvent (putBooking db b') b.eventId = findEvent db b.eventId from rfl, hfe]
    dsimp only [Option.map]
    rw [if_neg (by rw [show ((b'.userId == c.id
        || (recomputed (putBooking db b') ev).organizerId == c.id
        || c.role == Role.admin)) = (b.userId == c.id || ev.organizerId == c.id
        || c.role == Role.admin) from rfl, hauth]; exact not_not_intro rfl)]
    rw [if_pos (by
      show ¬ canBeCancelled b' = true
      rw [show canBeCancelled b' = false from rfl]
      exact Bool.false_ne_true)]

/-- Witness scenario for C5: invariant-satisfying store, cancellation well
outside the 24-hour window. -/
def c5Event : Event :=
  { id := 1, organizerId := 9, status := EStatus.published, start := 7200000000,
    capacity := { total := 5, reserved := 0, available := 3 },
    requiresApproval := false, isPublic := true }

def c5Booking : Booking :=
  { id := 60, eventId := 1, userId := 20, status := BStatus.confirmed,
    quantity := 2, cancelReason := none }

def c5DB : DB := { events := [c5Event], bookings := [c5Booking] }

theorem claim_C5_witness :
    ∃ db',
      cancelBookingRoute 0 c5DB 60 { id := 20, role := Role.user } none = (.ok, db') ∧
      (findEvent db' c5Booking.eventId).map (fun e => e.capacity.available)
        = some (c5Event.capacity.available + (c5Booking.quantity : Int)) ∧
      cancelBookingRoute 0 db' 60 { id := 20, role := Role.user } none
        = (.cannotBeCancelled, db') :=
  claim_C5_cancel_exactly_once 0 c5DB 60 { id := 20, role := Role.user } none
    c5Booking c5Event (by decide) (by decide) (by decide) (by decide) (by decide)
    (by decide) (by decide) (by decide) (by decide)

/-! ## Claim C6 -/

/-- Concrete state for the C6 counterexample: organizer cancels an event with
three active bookings of quantities 2, 1, 3 (scenario C). -/
def c6Event : Event :=
  { id := 1, organizerId := 9, status := EStatus.published, start := 7200000000,
    capacity := { total := 6, reserved := 0, available := 0 },
    requiresApproval := false, isPublic := true }

def c6Booking (i u q : Nat) : Booking :=
  { id := i, eventId := 1, userId := u, status := BStatus.confirmed,
    quantity := q, cancelReason := none }

def c6DB : DB :=
  { events := [c6Event],
    bookings := [c6Booking 1 10 2, c6Booking 2 11 1, c6Booking 3 12 3] }

def c6After : EventCancelResult × DB :=
  cancelEventRoute c6DB 1 { id := 9, role := Role.organizer }

/-- Claim C6 as stated is false in its "each transition goes through the
capacity-credit path" part: the cascade cancels all three bookings, but the
event's `available` is untouched (still 0), whereas the §4.2 credit /
recompute path would leave `available = total - reserved - Σ(active) = 6`. -/
theorem claim_C6_counterexample :
    c6After.1 = .ok ∧
    (∀ b ∈ c6After.2.bookings, b.status = BStatus.cancelled) ∧
    (findEvent c6After.2 1).map (fun e => e.capacity.available) = some 0 ∧
    activeSum c6After.2 1 = 0 ∧
    (findEvent c6After.2 1).map (fun e => e.capacity.available)
      ≠ some (6 - 0 - activeSum c6After.2 1) := by
  refine ⟨by decide, by decide, by decide, by decide, by decide⟩

/-- Amended claim C6: event cancellation sets the event's status to
`cancelled` (before the batch), transitions every pending/confirmed booking
on the event to `cancelled` with the system reason, leaves every other
booking untouched, and a second invocation of the route processes nothing
(it is rejected with `EVENT_ALREADY_CANCELLED` and changes no state) — but
the transitions do NOT go through the capacity-credit path: the event's
capacity fields are left exactly as they were. -/
theorem claim_C6_amended :
    ∀ (db : DB) (eid : Nat) (c : Caller) (ev : Event) (db' : DB),
      findEvent db eid = some ev →
      cancelEventRoute db eid c = (.ok, db') →
      ((findEvent db' eid).map (fun e => e.status) = some EStatus.cancelled ∧
       (findEvent db' eid).map (fun e => e.capacity) = some ev.capacity ∧
       (∀ b ∈ db'.bookings, b.eventId = eid → isActive b = false) ∧
       (∀ b ∈ db.bookings, (b.eventId == eid && isActive b) = true →
         { b with status := BStatus.cancelled,
                  cancelReason := some Reason.eventCancelledByOrganizer } ∈ db'.bookings) ∧
       (∀ b ∈ db.bookings, (b.eventId == eid && isActive b) = false → b ∈ db'.bookings) ∧
       cancelEventRoute db' eid c = (.alreadyCancelled, db')) := by
  intro db eid c ev db' hfe h
  have hevid : ev.id = eid := findEvent_id hfe
  unfold cancelEventRoute at h
  split at h
  · cases h
  next hrole =>
    rw [hfe] at h
    dsimp only at h
    split at h
    · cases h
    next horg =>
      split at h
      · cases h
      next hcanc =>
        cases hs : saveEvent db { ev with status := EStatus.cancelled } with
        | error e0 =>
          rw [hs] at h
          cases h
        | ok db1 =>
          rw [hs] at h
          dsimp only at h
          cases h
          unfold saveEvent at hs
          split_ifs at hs
          obtain rfl : putEvent db { ev with status := EStatus.cancelled } = db1 :=
            Except.ok.inj hs
          have hfe' : findEvent
              { putEvent db { ev with status := EStatus.cancelled } with
                bookings := (putEvent db
                  { ev with status := EStatus.cancelled }).bookings.map
                    (cascadeBooking eid) } eid
              = some { ev with status := EStatus.cancelled } := by
            show findEvent (putEvent db { ev with status := EStatus.cancelled }) eid
              = some { ev with status := EStatus.cancelled }
            rw [show eid = ({ ev with status := EStatus.cancelled } : Event).id
              from hevid.symm]
            rw [findEvent_putEvent_same]
            rw [show ({ ev with status := EStatus.cancelled } : Event).id = eid
              from hevid, hfe]
            rfl
          refine ⟨?_, ?_, ?_, ?_, ?_, ?_⟩
          · rw [hfe']
            rfl
          · rw [hfe']
            rfl
          · intro b hb hbe
            obtain ⟨x, hx, rfl⟩ := List.mem_map.mp hb
            unfold cascadeBooking at hbe ⊢
            by_cases hc : (x.eventId == eid
                && (x.status == BStatus.pending || x.status == BStatus.confirmed)) = true
            · rw [if_pos hc]
              rfl
            · rw [if_neg hc]
              rw [if_neg hc] at hbe
              rcases hact : isActive x with _ | _
              · rfl
              · exfalso
                apply hc
                unfold isActive at hact
                simp only [Bool.and_eq_true, beq_iff_eq]
                exact ⟨hbe, by simpa using hact⟩
          · intro b hb hc
            refine List.mem_map.mpr ⟨b, hb, ?_⟩
            unfold cascadeBooking
            rw [if_pos (by
              unfold isActive at hc
              exact hc)]
          · intro b hb hc
            refine List.mem_map.mpr ⟨b, hb, ?_⟩
            unfold cascadeBooking
            rw [if_neg (by
              unfold isActive at hc
              rw [hc]
              exact Bool.false_ne_true)]
          · unfold cancelEventRoute
            rw [if_neg hrole, hfe']
            dsimp only
            rw [if_neg horg]
            rw [if_pos (by rfl)]

theorem claim_C6_witness :
    (findEvent c6After.2 1).map (fun e => e.status) = some EStatus.cancelled ∧
    (findEvent c6After.2 1).map (fun e => e.capacity) = some c6Event.capacity ∧
    (∀ b ∈ c6After.2.bookings, b.eventId = 1 → isActive b = false) ∧
    cancelEventRoute c6After.2 1 { id := 9, role := Role.organizer }
      = (.alreadyCancelled, c6After.2) := by
  have h := claim_C6_amended c6DB 1 { id := 9, role := Role.organizer } c6Event
    c6After.2 (by decide) (by decide)
  exact ⟨h.1, h.2.1, h.2.2.1, h.2.2.2.2.2⟩

/-! ## Claim C9 -/

/-- Concrete snapshot for the C9 counterexample. -/
def c9Event : Event :=
  { id := 1, organizerId := 9, status := EStatus.published, start := 500,
    capacity := { total := 5, reserved := 0, available := 5 },
    requiresApproval := false, isPublic := true }

/-- Claim C9 as stated is false: a supplied `limit` above 50 is not clamped
to 50 — `eventValidation.list` rejects the request with `VALIDATION_ERROR`
before the route's `Math.min(parseInt(limit), 50)` ever runs.  Likewise a
limit below 1 is rejected, not raised to 1. -/
theorem claim_C9_counterexample :
    listEvents [c9Event] (some 100) CursorParam.absent
      = .error ListError.validationError ∧
    listEvents [c9Event] (some 0) CursorParam.absent
      = .error ListError.validationError := by
  refine ⟨by decide, by decide⟩

/-- Amended claim C9: a supplied limit outside `[1, 50]` is rejected with
`VALIDATION_ERROR`; every successful listing uses the effective page size
`min(limit ?? 12, 50)` and returns at most that many events. -/
theorem claim_C9_amended :
    (∀ (db : List Event) (n : Int) (c : CursorParam),
      n < 1 ∨ 50 < n →
      listEvents db (some n) c = .error .validationError) ∧
    (∀ (db : List Event) (lp : Option Int) (c : CursorParam) (r : ListResponse),
      listEvents db lp c = .ok r →
      r.limit = (min (lp.getD 12) 50).toNat ∧ r.events.length ≤ r.limit) := by
  constructor
  · intro db n c hn
    unfold listEvents
    rw [if_pos (by
      unfold limitOk
      simp only [Bool.and_eq_true, decide_eq_true_eq, not_and, not_le]
      intro h1
      omega)]
  · intro db lp c r h
    unfold listEvents at h
    split at h
    · cases h
    cases h
    refine ⟨rfl, ?_⟩
    show (if _ then ((matchedEvents db c).take (limitNum lp + 1)).take (limitNum lp)
      else (matchedEvents db c).take (limitNum lp + 1)).length ≤ limitNum lp
    by_cases hnext :
        (decide (limitNum lp < ((matchedEvents db c).take (limitNum lp + 1)).length)) = true
    · rw [if_pos hnext]
      have := List.length_take (limitNum lp)
        ((matchedEvents db c).take (limitNum lp + 1))
      omega
    · rw [if_neg hnext]
      simp only [decide_eq_true_eq, not_lt] at hnext
      exact hnext

/-- Witness snapshot for C9: three published events, limit 2. -/
def c9wDB : List Event :=
  [{ c9Event with id := 1, start := 30 },
   { c9Event with id := 2, start := 20 },
   { c9Event with id := 3, start := 10 }]

theorem claim_C9_witness :
    listEvents c9wDB (some 60) CursorParam.absent = .error .validationError ∧
    ∃ r, listEvents c9wDB (some 2) CursorParam.absent = .ok r ∧
      r.limit = (min ((some (2 : Int)).getD 12) 50).toNat ∧
      r.events.length ≤ r.limit := by
  constructor
  · exact claim_C9_amended.1 c9wDB 60 CursorParam.absent (Or.inr (by omega))
  · exact ⟨_, rfl, claim_C9_amended.2 c9wDB (some 2) CursorParam.absent _ rfl⟩

/-! ## Claim C8 -/

def c8Event : Event :=
  { id := 7, organizerId := 9, status := EStatus.published, start := 900,
    capacity := { total := 5, reserved := 0, available := 5 },
    requiresApproval := false, isPublic := true }

/-- Claim C8 as stated is false: a malformed (unparsable) cursor is NOT
processed exactly as if no cursor had been supplied — the
offset-compatibility `total`/`pages` fields are computed only when the
cursor parameter is absent (`if (!cursor)`), so the two responses differ. -/
theorem claim_C8_counterexample :
    listEvents [c8Event] none CursorParam.parseFail
      ≠ listEvents [c8Event] none CursorParam.absent := by
  decide

/-- Amended claim C8: a cursor that fails base64/JSON parsing does not fail
the request; the query ignores it entirely, so the returned first page of
events, `hasNextPage`, and `nextCursor` are identical to the cursorless
request — but the response is not byte-identical: `total`/`pages` are
omitted, since they are computed only when no cursor parameter is present. -/
theorem claim_C8_amended :
    ∀ (db : List Event) (lp : Option Int),
      limitOk lp = true →
      ∃ r1 r2,
        listEvents db lp CursorParam.parseFail = .ok r1 ∧
        listEvents db lp CursorParam.absent = .ok r2 ∧
        r1.events = r2.events ∧
        r1.hasNextPage = r2.hasNextPage ∧
        r1.nextCursor = r2.nextCursor ∧
        r1.total = none ∧
        r2.total = some ((db.filter baseMatch).length) := by
  intro db lp hok
  have hno : ¬ ¬ limitOk lp = true := by
    rw [hok]
    exact not_not_intro rfl
  unfold listEvents
  simp only [if_neg hno]
  exact ⟨_, _, rfl, rfl, rfl, rfl, rfl, rfl, rfl⟩

theorem claim_C8_witness :
    ∃ r1 r2,
      listEvents [c8Event] none CursorParam.parseFail = .ok r1 ∧
      listEvents [c8Event] none CursorParam.absent = .ok r2 ∧
      r1.events = r2.events ∧
      r1.hasNextPage = r2.hasNextPage ∧
      r1.nextCursor = r2.nextCursor ∧
      r1.total = none ∧
      r2.total = some (([c8Event].filter baseMatch).length) :=
  claim_C8_amended [c8Event] none (by decide)

/-! ## Claim C4 -/

theorem insertDesc_cons_of_lt {e x : Event} {xs : List Event} (h : x.start < e.start) :
    insertDesc e (x :: xs) = e :: x :: xs := by
  unfold insertDesc
  rw [if_pos h]

/-- Sorting a list that is already strictly descending by start leaves it
unchanged. -/
theorem sortDesc_of_pairwise :
    ∀ {l : List Event}, l.Pairwise (fun a b => b.start < a.start) → sortDesc l = l := by
  intro l
  induction l with
  | nil => intro; rfl
  | cons x xs ih =>
    intro hp
    have hx := (List.pairwise_cons.mp hp).1
    have hxs := (List.pairwise_cons.mp hp).2
    show insertDesc x (sortDesc xs) = x :: xs
    rw [ih hxs]
    cases xs with
    | nil => rfl
    | cons y ys => exact insertDesc_cons_of_lt (hx y (List.mem_cons_self y ys))

/-- In a `Pairwise R` list, every element is the last element or relates to
it. -/
theorem pairwise_rel_getLast {R : Event → Event → Prop} :
    ∀ {l : List Event}, l.Pairwise R → ∀ {z : Event}, l.getLast? = some z →
      ∀ a ∈ l, a = z ∨ R a z := by
  intro l
  induction l with
  | nil => intro _ z hz; cases hz
  | cons x xs ih =>
    intro hp z hz a ha
    cases xs with
    | nil =>
      obtain rfl : x = z := by simpa using hz
      rcases List.mem_cons.mp ha with rfl | h0
      · exact Or.inl rfl
      · cases h0
    | cons y ys =>
      rw [List.getLast?_cons_cons] at hz
      rcases List.mem_cons.mp ha with rfl | ha'
      · refine Or.inr ((List.pairwise_cons.mp hp).1 z ?_)
        exact List.mem_of_mem_getLast? hz
      · exact ih (List.pairwise_cons.mp hp).2 hz a ha'

/-- Splitting a snapshot at a start-time threshold: everything at or above
`t` is filtered out, everything below stays. -/
theorem filter_start_between {l₁ l₂ : List Event} {t : Int}
    (h1 : ∀ a ∈ l₁, ¬ a.start < t)
    (h2 : ∀ b ∈ l₂, b.start < t)
    (hb2 : ∀ b ∈ l₂, baseMatch b = true) :
    (l₁ ++ l₂).filter (fun e => baseMatch e && decide (e.start < t)) = l₂ := by
  rw [List.filter_append]
  rw [List.filter_eq_nil_iff.mpr (by
    intro a ha
    simp only [Bool.and_eq_true, decide_eq_true_eq, not_and]
    intro _
    exact h1 a ha)]
  rw [List.filter_eq_self.mpr (by
    intro b hb
    simp only [Bool.and_eq_true, decide_eq_true_eq]
    exact ⟨hb2 b hb, h2 b hb⟩)]
  rfl

theorem limitOk_nat {p : Nat} (h1 : 1 ≤ p) (h50 : p ≤ 50) :
    limitOk (some (p : Int)) = true := by
  unfold limitOk
  simp only [Bool.and_eq_true, decide_eq_true_eq]
  omega

theorem limitNum_nat {p : Nat} (h50 : p ≤ 50) :
    limitNum (some (p : Int)) = p := by
  unfold limitNum
  simp only [Option.getD]
  omega

/-- Page equation when the whole remainder fits on one page. -/
theorem listEvents_last_page {db : List Event} {p : Nat} (h1 : 1 ≤ p) (h50 : p ≤ 50)
    {c : CursorParam} (hshort : (matchedEvents db c).length ≤ p) :
    listEvents db (some (p : Int)) c = .ok
      { events := matchedEvents db c, limit := p, hasNextPage := false,
        nextCursor := none,
        total := if c.isAbsent then some ((db.filter baseMatch).length) else none,
        pages := (if c.isAbsent then some ((db.filter baseMatch).length) else none).map
          (fun t => (t + p - 1) / p) } := by
  unfold listEvents
  rw [if_neg (by rw [limitOk_nat h1 h50]; exact not_not_intro rfl)]
  dsimp only
  rw [limitNum_nat h50]
  rw [List.take_of_length_le (by omega)]
  rw [show (decide (p < (matchedEvents db c).length)) = false from by
    simp only [decide_eq_false_iff_not, not_lt]
    exact hshort]
  rfl

/-- Page equation for a full page with a further page behind it. -/
theorem listEvents_mid_page {db : List Event} {p : Nat} (h1 : 1 ≤ p) (h50 : p ≤ 50)
    {c : CursorParam} {z : Event} (hlong : p < (matchedEvents db c).length)
    (hz : ((matchedEvents db c).take p).getLast? = some z) :
    listEvents db (some (p : Int)) c = .ok
      { events := (matchedEvents db c).take p, limit := p, hasNextPage := true,
        nextCursor := some (z.start, z.id),
        total := if c.isAbsent then some ((db.filter baseMatch).length) else none,
        pages := (if c.isAbsent then some ((db.filter baseMatch).length) else none).map
          (fun t => (t + p - 1) / p) } := by
  unfold listEvents
  rw [if_neg (by rw [limitOk_nat h1 h50]; exact not_not_intro rfl)]
  dsimp only
  rw [limitNum_nat h50]
  rw [show (decide (p < ((matchedEvents db c).take (p + 1)).length)) = true from by
    simp only [decide_eq_true_eq, List.length_take]
    omega]
  rw [if_pos rfl, if_pos rfl]
  rw [List.take_take, show p ⊓ (p + 1) = p from by omega, hz]
  rfl

/-- Traversal correctness over a strictly-descending all-published snapshot:
if the current cursor's filter selects exactly the suffix `rest`, the
traversal returns `rest`. -/
theorem collect_suffix {p : Nat} (h1 : 1 ≤ p) (h50 : p ≤ 50) {db : List Event}
    (hpw : db.Pairwise (fun a b => b.start < a.start))
    (hbase : ∀ e ∈ db, baseMatch e = true) :
    ∀ (fuel : Nat) (c : CursorParam) (pre rest : List Event),
      db = pre ++ rest →
      db.filter (fun e => baseMatch e && cursorPred c e) = rest →
      rest.length < fuel →
      collectPages db (some (p : Int)) fuel c = rest := by
  intro fuel
  induction fuel with
  | zero =>
    intro c pre rest hsplit hfilter hlen
    exact absurd hlen (by omega)
  | succ n ih =>
    intro c pre rest hsplit hfilter hlen
    have hrestpw : rest.Pairwise (fun a b => b.start < a.start) :=
      hfilter ▸ hpw.filter _
    have hmatched : matchedEvents db c = rest := by
      unfold matchedEvents
      rw [hfilter]
      exact sortDesc_of_pairwise hrestpw
    by_cases hcase : rest.length ≤ p
    · rw [show collectPages db (some (p : Int)) (n + 1) c
          = match listEvents db (some (p : Int)) c with
            | .error _ => []
            | .ok r =>
              if r.hasNextPage then
                match r.nextCursor with
                | some (t, i) => r.events ++ collectPages db (some (p : Int)) n (.parsed t i)
                | none => r.events
              else r.events from rfl]
      rw [listEvents_last_page h1 h50 (by rw [hmatched]; exact hcase)]
      dsimp only
      rw [if_neg (by simp)]
      exact hmatched
    · push_neg at hcase
      -- the kept page is nonempty, so it has a last element
      have hne : (rest.take p).length = p := by
        rw [List.length_take]
        omega
      have hnonnil : rest.take p ≠ [] := by
        intro hcon
        rw [hcon] at hne
        simp at hne
        omega
      obtain ⟨z, hz⟩ : ∃ z, (rest.take p).getLast? = some z :=
        Option.isSome_iff_exists.mp (List.getLast?_isSome.mpr hnonnil)
      have hzmem : z ∈ rest.take p := List.mem_of_mem_getLast? hz
      have hrest_split : rest.take p ++ rest.drop p = rest := List.take_append_drop p rest
      -- every element of the store at or before the page fails the new filter
      have hnew_filter : db.filter
          (fun e => baseMatch e && cursorPred (CursorParam.parsed z.start z.id) e)
          = rest.drop p := by
        have hdb2 : db = (pre ++ rest.take p) ++ rest.drop p := by
          rw [List.append_assoc, hrest_split, hsplit]
        rw [hdb2]
        show ((pre ++ rest.take p) ++ rest.drop p).filter
          (fun e => baseMatch e && decide (e.start < z.start)) = rest.drop p
        refine filter_start_between ?_ ?_ ?_
        · intro a ha
          rcases List.mem_append.mp ha with hpre | htk
          · -- elements before the suffix are strictly above every suffix start
            have hcross := (List.pairwise_append.mp (hsplit ▸ hpw)).2.2
            have : z.start < a.start := hcross a hpre z (List.take_subset p rest hzmem)
            omega
          · -- elements of the kept page are at or above its last element
            have htkpw : (rest.take p).Pairwise (fun a b => b.start < a.start) :=
              hrestpw.sublist (List.take_sublist p rest)
            rcases pairwise_rel_getLast htkpw hz a htk with rfl | hlt
            · omega
            · omega
        · intro b hb
          have hcross := (List.pairwise_append.mp (hrest_split ▸ hrestpw)).2.2
          exact hcross z hzmem b hb
        · intro b hb
          exact hbase b (by
            rw [hsplit]
            exact List.mem_append_right pre (List.drop_subset p rest hb))
      rw [show collectPages db (some (p : Int)) (n + 1) c
          = match listEvents db (some (p : Int)) c with
            | .error _ => []
            | .ok r =>
              if r.hasNextPage then
                match r.nextCursor with
                | some (t, i) => r.events ++ collectPages db (some (p : Int)) n (.parsed t i)
                | none => r.events
              else r.events from rfl]
      rw [listEvents_mid_page h1 h50 (by rw [hmatched]; exact hcase)
        (by rw [hmatched]; exact hz)]
      dsimp only
      rw [if_pos rfl]
      rw [hmatched]
      rw [ih (CursorParam.parsed z.start z.id) (pre ++ rest.take p) (rest.drop p)
        (by rw [List.append_assoc, hrest_split, hsplit]) hnew_filter
        (by rw [List.length_drop]; omega)]
      exact hrest_split

/-- Two published events sharing the same `dateTime.start`. -/
def c4TieA : Event :=
  { id := 1, organizerId := 9, status := EStatus.published, start := 500,
    capacity := { total := 5, reserved := 0, available := 5 },
    requiresApproval := false, isPublic := true }

def c4TieB : Event := { c4TieA with id := 2 }

def c4TieDB : List Event := [c4TieA, c4TieB]

/-- Claim C4 as stated is false when several events share the same
`dateTime.start`: with `M = 2` tied events and page size `p = 1`, the cursor
filter is a strict `dateTime.start < t` with the encoded `id` never used, so
the second page skips every event tied with the first page's last item — the
traversal returns a single event and one of the two published events is
never yielded. -/
theorem claim_C4_counterexample :
    c4TieA ∈ c4TieDB ∧ c4TieB ∈ c4TieDB ∧
    (collectPages c4TieDB (some 1) 3 CursorParam.absent).length = 1 ∧
    c4TieA ∉ collectPages c4TieDB (some 1) 3 CursorParam.absent := by
  refine ⟨by decide, by decide, by decide, by decide⟩

/-- Amended claim C4: for a snapshot of `M` published (public) events listed
in strictly descending `dateTime.start` order — i.e. with pairwise-distinct
start times — and any page size `p ∈ [1, 50]`, traversing `nextCursor` from
the empty cursor until `hasNextPage = false` yields every one of the `M`
events exactly once, in sort order.  (The `id` tie-break is encoded in the
cursor but never used by the query, so the guarantee does not extend to
snapshots with duplicated start times.) -/
theorem claim_C4_amended :
    ∀ (db : List Event) (p : Nat),
      1 ≤ p → p ≤ 50 →
      db.Pairwise (fun a b => b.start < a.start) →
      (∀ e ∈ db, baseMatch e = true) →
      ∀ fuel, db.length < fuel →
        collectPages db (some (p : Int)) fuel CursorParam.absent = db := by
  intro db p h1 h50 hpw hbase fuel hfuel
  refine collect_suffix h1 h50 hpw hbase fuel CursorParam.absent [] db rfl ?_ hfuel
  exact List.filter_eq_self.mpr (by
    intro e he
    show (baseMatch e && cursorPred CursorParam.absent e) = true
    rw [hbase e he]
    rfl)

/-- Witness snapshot for C4: the five events of scenario B, start times
strictly descending, traversed with `limit = 2` (pages [5,4], [3,2], [1]). -/
def c4wEvent (i : Nat) (s : Int) : Event :=
  { id := i, organizerId := 9, status := EStatus.published, start := s,
    capacity := { total := 5, reserved := 0, available := 5 },
    requiresApproval := false, isPublic := true }

def c4wDB : List Event :=
  [c4wEvent 5 50, c4wEvent 4 40, c4wEvent 3 30, c4wEvent 2 20, c4wEvent 1 10]

theorem claim_C4_witness :
    collectPages c4wDB (some 2) 6 CursorParam.absent = c4wDB :=
  claim_C4_amended c4wDB 2 (by decide) (by decide) (by decide) (by decide) 6
    (by decide)

end EventManager
